import Mathlib

/-!
Shallow embedding of the two-tier response-cache subsystem of the
ayira-admin backend (src/middleware/cache, server bootstrap, and the
product-controller invalidation call sites), together with proofs that
settle the frozen specification claims.

Modelling conventions:
* JS values flowing through the cache are modelled by the inductive `Json`
  type below (null, booleans, strings, arrays, objects).  Numeric leaves of
  real payloads are represented as their printed string form; no claim
  depends on numeric arithmetic inside a payload.
* Time is a natural-number clock (seconds).  Entries store an absolute
  expiration instant; `now + ttl` is the instant written by a set.
* The in-process tier is a NodeCache instance configured with
  maxKeys 5000.  Per the node-cache library semantics, `set` raises an
  ECACHEFULL error when the store already holds `maxKeys` entries (no
  eviction is performed); `get` returns `undefined` for a missing or
  expired key and the stored value otherwise (an entry is live while
  `now <= expireAt`).  The periodic sweep and the hit/miss counters are
  bookkeeping that no claim depends on and are not modelled.
* The distributed tier is a redis client.  `isOpen` tracks connectivity;
  every call site guards on it exactly where the source does.  A stored
  entry is live while `now < expireAt`.  `KEYS *p*` for a pattern without
  glob metacharacters is substring enumeration, mirrored here by
  `strIncludes`; the patterns used by the code are plain strings.
* `JSON.parse` inverts `JSON.stringify` on the value domain, so the model
  keeps the structured value in the redis store; the middleware's JS
  truthiness test on the serialized string is modelled by testing
  `jsonStringify` of the stored value against the empty string, exactly
  the test the source performs.
-/

set_option autoImplicit false
set_option linter.unusedVariables false

namespace AyiraCache

/-- JSON-like value domain for cached payloads. -/
inductive Json where
  | null : Json
  | bool (b : Bool) : Json
  | str (s : String) : Json
  | arr (elems : List Json) : Json
  | obj (fields : List (String × Json)) : Json

/-- JS truthiness of a payload value (`undefined`/missing is handled at the
`Option` layer by `jsTruthyOpt`). -/
def Json.truthy : Json → Bool
  | .null => false
  | .bool b => b
  | .str s => s ≠ ""
  | .arr _ => true
  | .obj _ => true

/-- JS truthiness of `memoryCache.get(key)`: `undefined` (a miss) is falsy,
a present value is tested by `Json.truthy`. -/
def jsTruthyOpt : Option Json → Bool
  | none => false
  | some v => v.truthy

mutual

/-- `JSON.stringify` on the modelled value domain. -/
def jsonStringify : Json → String
  | .null => "null"
  | .bool b => cond b "true" "false"
  | .str s => "\x22" ++ s ++ "\x22"
  | .arr elems => "[" ++ jsonStringifyArr elems ++ "]"
  | .obj fields => "\x7b" ++ jsonStringifyObj fields ++ "\x7d"

def jsonStringifyArr : List Json → String
  | [] => ""
  | [v] => jsonStringify v
  | v :: rest => jsonStringify v ++ "," ++ jsonStringifyArr rest

def jsonStringifyObj : List (String × Json) → String
  | [] => ""
  | [(k, v)] => "\x22" ++ k ++ "\x22:" ++ jsonStringify v
  | (k, v) :: rest => "\x22" ++ k ++ "\x22:" ++ jsonStringify v ++ "," ++ jsonStringifyObj rest

end

theorem jsonStringify_length_pos (v : Json) : 0 < (jsonStringify v).length := by
  have hq : ("\x22" : String).length = 1 := by decide
  have hb : ("[" : String).length = 1 := by decide
  have hc : ("\x7b" : String).length = 1 := by decide
  cases v with
  | null => simp only [jsonStringify]; decide
  | bool b => cases b <;> (simp only [jsonStringify, Bool.cond_true, Bool.cond_false]; decide)
  | str s => simp only [jsonStringify, String.length_append, hq]; omega
  | arr elems => simp only [jsonStringify, String.length_append, hb]; omega
  | obj fields => simp only [jsonStringify, String.length_append, hc]; omega

/-- The serialized form of a JSON value is never the empty string, so the
JS truthiness test `if (redisCached)` on a stored serialized payload always
passes. -/
theorem jsonStringify_ne_empty (v : Json) : jsonStringify v ≠ "" := by
  intro h
  have hl := jsonStringify_length_pos v
  rw [h] at hl
  exact absurd hl (by decide)

/-! ### Key-value store primitives

Both tiers are string-keyed stores.  They are modelled as association
lists with at most one binding per key (operations preserve this). -/

/-- Lookup in an association list (the first binding wins). -/
def aget {α : Type} : List (String × α) → String → Option α
  | [], _ => none
  | (k', v) :: rest, k => if k' = k then some v else aget rest k

/-- Insert-or-replace in an association list. -/
def aset {α : Type} : List (String × α) → String → α → List (String × α)
  | [], k, v => [(k, v)]
  | (k', v') :: rest, k, v =>
    if k' = k then (k, v) :: rest else (k', v') :: aset rest k v

/-- Delete every binding whose key occurs in `ks` (the batch delete both
tiers expose: `memoryCache.del(keys)` and `redisClient.del(keys)`). -/
def delKeys {α : Type} (l : List (String × α)) (ks : List String) : List (String × α) :=
  l.filter (fun kv => !(decide (kv.1 ∈ ks)))

theorem aget_aset_self {α : Type} (l : List (String × α)) (k : String) (v : α) :
    aget (aset l k v) k = some v := by
  induction l with
  | nil => simp [aget, aset]
  | cons hd tl ih =>
    obtain ⟨k', v'⟩ := hd
    by_cases h : k' = k
    · simp [aget, aset, h]
    · simp [aget, aset, h, ih]

theorem aget_aset_ne {α : Type} (l : List (String × α)) (k k' : String) (v : α)
    (h : k ≠ k') : aget (aset l k v) k' = aget l k' := by
  induction l with
  | nil => simp [aget, aset, h]
  | cons hd tl ih =>
    obtain ⟨k0, v0⟩ := hd
    by_cases h0 : k0 = k
    · simp [aget, aset, h0, h]
    · simp only [aset, if_neg h0, aget]
      by_cases h1 : k0 = k'
      · simp [h1]
      · simp [h1, ih]

theorem aget_eq_none_of_not_mem {α : Type} (l : List (String × α)) (k : String)
    (h : ∀ p ∈ l, p.1 ≠ k) : aget l k = none := by
  induction l with
  | nil => rfl
  | cons hd tl ih =>
    obtain ⟨k', v'⟩ := hd
    have hne : k' ≠ k := h (k', v') (List.mem_cons_self _ _)
    simp only [aget, if_neg hne]
    exact ih fun p hp => h p (List.mem_cons_of_mem _ hp)

theorem not_mem_of_aget_eq_none {α : Type} (l : List (String × α)) (k : String)
    (h : aget l k = none) : ∀ p ∈ l, p.1 ≠ k := by
  induction l with
  | nil => intro p hp; cases hp
  | cons hd tl ih =>
    obtain ⟨k', v'⟩ := hd
    intro p hp
    rcases List.mem_cons.mp hp with hp | hp
    · subst hp
      intro hk
      have hk' : k' = k := hk
      rw [aget, if_pos hk'] at h
      exact Option.noConfusion h
    · by_cases hk : k' = k
      · rw [aget, if_pos hk] at h
        exact Option.noConfusion h
      · rw [aget, if_neg hk] at h
        exact ih h p hp

theorem aget_delKeys {α : Type} (l : List (String × α)) (ks : List String) (k : String) :
    aget (delKeys l ks) k = if k ∈ ks then none else aget l k := by
  induction l with
  | nil => simp [delKeys, aget]
  | cons hd tl ih =>
    obtain ⟨k', v'⟩ := hd
    by_cases hmem : k' ∈ ks
    · by_cases hk : k' = k
      · subst hk
        simp [delKeys, List.filter_cons, hmem] at *
        exact ih
      · simp [delKeys, List.filter_cons, hmem, aget, hk] at *
        exact ih
    · by_cases hk : k' = k
      · subst hk
        simp [delKeys, List.filter_cons, hmem, aget]
      · simp [delKeys, List.filter_cons, hmem, aget, hk] at *
        exact ih

theorem delKeys_length_le {α : Type} (l : List (String × α)) (ks : List String) :
    (delKeys l ks).length ≤ l.length :=
  List.length_filter_le _ _

theorem aset_length {α : Type} (l : List (String × α)) (k : String) (v : α) :
    (aset l k v).length = l.length ∨ (aset l k v).length = l.length + 1 := by
  induction l with
  | nil => right; rfl
  | cons hd tl ih =>
    obtain ⟨k', v'⟩ := hd
    by_cases h : k' = k
    · left; simp [aset, h]
    · rcases ih with ih | ih
      · left; simp [aset, h, List.length_cons, ih]
      · right; simp [aset, h, List.length_cons, ih]

/-! ### Substring containment

`key.includes(pattern)` in the memory tier, and `KEYS *pattern*` (for the
plain-string patterns the code uses) in the distributed tier. -/

/-- Bool-valued substring containment on character lists. -/
def hasInfix : List Char → List Char → Bool
  | l, pat =>
    match l with
    | [] => pat.isEmpty
    | _ :: t => pat.isPrefixOf l || hasInfix t pat

/-- `s.includes(pat)` from JS: substring containment on strings. -/
def strIncludes (s pat : String) : Bool :=
  hasInfix s.data pat.data

theorem hasInfix_nil_pat (l : List Char) : hasInfix l [] = true := by
  induction l with
  | nil => rfl
  | cons c t ih => simp [hasInfix, ih, List.isPrefixOf]

/-- Every key contains the empty pattern: `k.includes("")` is `true`. -/
theorem strIncludes_empty (s : String) : strIncludes s "" = true := by
  simpa [strIncludes] using hasInfix_nil_pat s.data

theorem hasInfix_iff (l pat : List Char) : hasInfix l pat = true ↔ pat <:+: l := by
  induction l with
  | nil =>
    simp only [hasInfix, List.isEmpty_iff]
    constructor
    · intro h; subst h; exact List.infix_refl _
    · intro h; exact List.eq_nil_of_infix_nil h
  | cons c t ih =>
    simp only [hasInfix, Bool.or_eq_true, List.isPrefixOf_iff_prefix, ih]
    constructor
    · rintro (h | h)
      · exact h.isInfix
      · exact List.infix_cons h
    · intro h
      rcases h with ⟨s₁, s₂, heq⟩
      cases s₁ with
      | nil => left; exact ⟨s₂, by simpa using heq⟩
      | cons a s₁ =>
        right
        exact ⟨s₁, s₂, by simpa using congrArg List.tail heq⟩

/-! ### The two tiers

From src/middleware/cache: `memoryCache = new NodeCache({stdTTL: 300,
checkperiod: 60, useClones: false, maxKeys: 5000})` and
`redisClient = redis.createClient({...})`. -/

/-- One memory-tier entry: the stored value and its absolute expiration
instant (`Date.now() + ttl` at set time). -/
structure MemEntry where
  value : Json
  expireAt : Nat

/-- The NodeCache instance: bounded key count, per-entry TTL.  The periodic
expiry sweep (`checkperiod`) and hit/miss counters are not modelled; no
claim depends on them. -/
structure MemoryCache where
  data : List (String × MemEntry)
  maxKeys : Nat

/-- The error a NodeCache `set` raises when the store already holds
`maxKeys` entries (node-cache performs no eviction: the set is rejected). -/
inductive CacheError where
  | ecachefull : CacheError
  deriving DecidableEq

/-- `memoryCache.get(key)`: `undefined` for a missing key or an expired
entry (an entry is live while `now ≤ expireAt`), the stored value
otherwise. -/
def memGet (c : MemoryCache) (now : Nat) (k : String) : Option Json :=
  match aget c.data k with
  | none => none
  | some e => if now ≤ e.expireAt then some e.value else none

/-- `memoryCache.set(key, value, ttl)`: node-cache first checks the
`maxKeys` bound against the current key count and raises ECACHEFULL when
it is reached; otherwise it inserts or replaces the binding. -/
def memSet (c : MemoryCache) (now : Nat) (k : String) (v : Json) (ttl : Nat) :
    Except CacheError MemoryCache :=
  if c.maxKeys ≤ c.data.length then .error .ecachefull
  else .ok { c with data := aset c.data k ⟨v, now + ttl⟩ }

/-- One distributed-tier entry.  The store physically holds the serialized
string `jsonStringify value`; since `JSON.parse` inverts `jsonStringify`
on this value domain, the model keeps the structured value. -/
structure RedisEntry where
  value : Json
  expireAt : Nat

/-- The redis client: connectivity flag (`isOpen`) plus the keyspace. -/
structure RedisState where
  isOpen : Bool
  data : List (String × RedisEntry)

/-- `redisClient.get(key)`: `null` for a missing or expired key (an entry
is live while `now < expireAt`), the stored payload otherwise.  Callers
guard on `isOpen` exactly where the source does. -/
def redisGet (r : RedisState) (now : Nat) (k : String) : Option Json :=
  match aget r.data k with
  | none => none
  | some e => if now < e.expireAt then some e.value else none

/-- `redisClient.setEx(key, ttl, JSON.stringify(data))`. -/
def redisSetEx (r : RedisState) (now : Nat) (k : String) (v : Json) (ttl : Nat) : RedisState :=
  { r with data := aset r.data k ⟨v, now + ttl⟩ }

/-- The process-wide cache state: the in-process NodeCache plus the
redis client. -/
structure CacheState where
  mem : MemoryCache
  redis : RedisState

/-! ### Facade operations (src/middleware/cache) -/

/-- `setCache(key, data, ttl, useRedis)`: memory write with
`Math.min(ttl, 300)`, then a redis write with the full ttl when enabled
and open.  The surrounding try/catch absorbs a memory-tier ECACHEFULL:
the state is left unchanged and the redis write is skipped. -/
def setCache (st : CacheState) (now : Nat) (key : String) (data : Json)
    (ttl : Nat) (useRedis : Bool) : CacheState :=
  match memSet st.mem now key data (min ttl 300) with
  | .error _ => st
  | .ok m =>
    let st1 : CacheState := { st with mem := m }
    if useRedis && st1.redis.isOpen then
      { st1 with redis := redisSetEx st1.redis now key data ttl }
    else st1

/-- `getCache(key, useRedis)`: memory first (a JS-truthy value returns
immediately), then redis; a redis hit is backfilled into memory with a
fixed 60s TTL.  The try/catch turns a failed backfill set (capacity full)
into a `null` return.  Returns the value produced and the state after the
call. -/
def getCache (st : CacheState) (now : Nat) (key : String) (useRedis : Bool) :
    Option Json × CacheState :=
  let memoryData := memGet st.mem now key
  if jsTruthyOpt memoryData then (memoryData, st)
  else if useRedis && st.redis.isOpen then
    match redisGet st.redis now key with
    | some v =>
      if jsonStringify v = "" then (none, st)
      else
        match memSet st.mem now key v 60 with
        | .error _ => (none, st)
        | .ok m => (some v, { st with mem := m })
    | none => (none, st)
  else (none, st)

/-- `clearCacheByPattern(pattern)`: filters the memory keys by substring
containment and batch-deletes them; when the redis client is open,
enumerates `KEYS *pattern*` and batch-deletes when non-empty.  The source
function has no return statement, so its call resolves to `undefined`:
the `Option Nat` component models the count a caller would receive —
always `none` (the combined count only appears in a debug log line). -/
def clearCacheByPattern (st : CacheState) (now : Nat) (pattern : String) :
    CacheState × Option Nat :=
  let memoryKeys := st.mem.data.map Prod.fst
  let keysToDelete := memoryKeys.filter (fun k => strIncludes k pattern)
  let mem1 : MemoryCache := { st.mem with data := delKeys st.mem.data keysToDelete }
  if st.redis.isOpen then
    let redisKeys := (st.redis.data.map Prod.fst).filter (fun k => strIncludes k pattern)
    let redis1 : RedisState :=
      if 0 < redisKeys.length then { st.redis with data := delKeys st.redis.data redisKeys }
      else st.redis
    ({ mem := mem1, redis := redis1 }, none)
  else
    ({ mem := mem1, redis := st.redis }, none)

/-- `clearAllCache()`: `memoryCache.flushAll()` always, `flushDb` when the
redis client is open. -/
def clearAllCache (st : CacheState) : CacheState :=
  let st1 : CacheState := { st with mem := { st.mem with data := [] } }
  if st1.redis.isOpen then { st1 with redis := { st1.redis with data := [] } }
  else st1

/-- The snapshot `getCacheStats()` returns: memory-tier counters (the key
count; the remaining node-cache counters are bookkeeping no claim uses)
and the distributed tier's connectivity as a string. -/
structure CacheStats where
  memKeys : Nat
  redis : String
  deriving DecidableEq

/-- `getCacheStats()`. -/
def getCacheStats (st : CacheState) : CacheStats :=
  { memKeys := st.mem.data.length
    redis := if st.redis.isOpen then "connected" else "disconnected" }

/-! ### Response-cache middleware (cacheMiddleware)

The middleware receives `(duration, useRedis)` at configuration time and a
request at call time.  The domain handler is modelled as the
status/payload pair it would produce through `res.json`; handlers are
outside the cache subsystem and treated as pure here. -/

/-- The request shape the middleware consumes. -/
structure Request where
  method : String
  originalUrl : String

/-- Outcome of processing one request through the middleware chain. -/
inductive ReqResult where
  | fromCache (payload : Json) (st : CacheState)
  | fromHandler (payload : Json) (st : CacheState)
  | errored (e : CacheError) (st : CacheState)

/-- The derived cache key. -/
def cacheKey (req : Request) : String :=
  "cache:" ++ req.originalUrl

/-- The monkey-patched `res.json`: a 2xx status stores the payload in the
memory tier with `Math.min(duration, 300)` and, when enabled and open, in
redis with the full duration, then forwards to the original `res.json`.
The patched body has no try/catch of its own, so a memory-tier ECACHEFULL
raised by `memoryCache.set` propagates to the caller of `res.json`. -/
def patchedJson (duration : Nat) (useRedis : Bool) (key : String) (st : CacheState)
    (now : Nat) (status : Nat) (data : Json) : ReqResult :=
  if 200 ≤ status ∧ status < 300 then
    match memSet st.mem now key data (min duration 300) with
    | .error e => .errored e st
    | .ok m =>
      let st1 : CacheState := { st with mem := m }
      let st2 : CacheState :=
        if useRedis && st1.redis.isOpen then
          { st1 with redis := redisSetEx st1.redis now key data duration }
        else st1
      .fromHandler data st2
  else .fromHandler data st

/-- Cache miss: `next()` runs the handler with the patched `res.json`. -/
def missStage (duration : Nat) (useRedis : Bool) (key : String) (st : CacheState)
    (now : Nat) (handler : Nat × Json) : ReqResult :=
  patchedJson duration useRedis key st now handler.1 handler.2

/-- The redis stage of the middleware: consulted after a memory miss when
`useRedis` and the client is open.  A hit (JS-truthy serialized string)
backfills memory with a fixed 60s TTL and short-circuits; if that backfill
set raises (capacity full), the outer catch falls through to `next()` with
an UNPATCHED `res.json`, so the response is served by the handler and not
cached. -/
def redisStage (duration : Nat) (useRedis : Bool) (key : String) (st : CacheState)
    (now : Nat) (handler : Nat × Json) : ReqResult :=
  if useRedis && st.redis.isOpen then
    match redisGet st.redis now key with
    | some v =>
      if jsonStringify v = "" then missStage duration useRedis key st now handler
      else
        match memSet st.mem now key v 60 with
        | .error _ => .fromHandler handler.2 st
        | .ok m => .fromCache v { st with mem := m }
    | none => missStage duration useRedis key st now handler
  else missStage duration useRedis key st now handler

/-- `cacheMiddleware(duration, useRedis)` applied to one request: non-GET
requests pass straight through; a GET request consults the memory tier
(JS truthiness test on the value), then the redis stage. -/
def handleRequest (duration : Nat) (useRedis : Bool) (st : CacheState) (now : Nat)
    (req : Request) (handler : Nat × Json) : ReqResult :=
  if req.method ≠ "GET" then .fromHandler handler.2 st
  else
    let key := cacheKey req
    match memGet st.mem now key with
    | some v =>
      if v.truthy then .fromCache v st
      else redisStage duration useRedis key st now handler
    | none => redisStage duration useRedis key st now handler

/-! ### Server bootstrap (startServer, from the server entry file)

The startup sequence runs `createUploadDirs(); await redisClient.connect();
await connectDB(); app.listen(...)` inside one try/catch whose handler
logs the failure and calls `process.exit(1)`. -/

/-- Success or failure of one awaited startup step. -/
inductive StepResult where
  | success : StepResult
  | failure : StepResult
  deriving DecidableEq

/-- What the process ends up doing after `startServer()`. -/
inductive StartOutcome where
  | listening : StartOutcome
  | exited (code : Nat) : StartOutcome
  deriving DecidableEq

/-- `startServer()` as a function of the outcomes of its awaited steps. -/
def startServer (uploadDirs redisConn dbConn : StepResult) : StartOutcome :=
  match uploadDirs with
  | .failure => .exited 1
  | .success =>
    match redisConn with
    | .failure => .exited 1
    | .success =>
      match dbConn with
      | .failure => .exited 1
      | .success => .listening

/-! ### Operator surface: GET /api/performance -/

/-- Field lookup on a JSON object. -/
def Json.field : Json → String → Option Json
  | .obj fields, k => aget fields k
  | _, _ => none

/-- JSON encoding of the stats snapshot as the handler embeds it. -/
def statsToJson (s : CacheStats) : Json :=
  .obj [("memory", .obj [("keys", .str (toString s.memKeys))]),
        ("redis", .str s.redis)]

/-- Module paths (extension elided) that resolve on the repository's disk
for the require call sites modelled here: app.js itself lives at
src/app.js and the cache module at src/middleware/cache.js.  The
repository has no src/src directory. -/
def repoModules : List String :=
  ["src/app", "src/middleware/cache"]

def moduleExists (m : String) : Bool :=
  repoModules.contains m

/-- Node resolution of a relative specifier of the form ./rest against
the directory of the requiring file. -/
def resolveRequire (dir : String) (specifier : String) : String :=
  dir ++ "/" ++ specifier.drop 2

/-- Outcome of running one route handler body: either a response was
produced, or the handler threw synchronously before responding. -/
inductive HandlerOutcome where
  | respond (status : Nat) (body : Json)
  | threw (message : String)

/-- The `/api/performance` handler, registered in src/app.js.  Its first
statement is `const { getCacheStats } = require('./src/middleware/cache')`,
resolved against the requiring file's directory src; when that path does
not resolve, the require throws MODULE_NOT_FOUND before any response is
built.  Only if the module resolves does the handler run
`res.status(200).json({status: 'OK', cache: getCacheStats(), memory,
uptime, environment, timestamp})` (the process-environment reads are
opaque inputs). -/
def performanceHandler (st : CacheState) (memoryUsage uptime environment timestamp : Json) :
    HandlerOutcome :=
  if moduleExists (resolveRequire "src" "./src/middleware/cache") then
    .respond 200
      (.obj [("status", .str "OK"),
             ("cache", statsToJson (getCacheStats st)),
             ("memory", memoryUsage),
             ("uptime", uptime),
             ("environment", environment),
             ("timestamp", timestamp)])
  else .threw "Cannot find module ./src/middleware/cache"

/-- The global Express error handler of src/app.js: `error.status || 500`
(a MODULE_NOT_FOUND error carries no status field, so 500) with the body
{success: false, message, path, timestamp, version: '2.0.0'}. -/
def globalErrorResponse (message path timestamp : String) : Nat × Json :=
  (500,
   .obj [("success", .bool false),
         ("message", .str message),
         ("path", .str path),
         ("timestamp", .str timestamp),
         ("version", .str "2.0.0")])

/-- Express dispatch of a handler outcome: a synchronous throw inside the
handler is routed to the global error handler. -/
def dispatchHandler (h : HandlerOutcome) (path timestamp : String) : Nat × Json :=
  match h with
  | .respond s b => (s, b)
  | .threw message => globalErrorResponse message path timestamp

/-! ### Invalidation call site (product.controller) -/

/-- The patterns the product controller fires after a product write. -/
def productInvalidationPatterns : List String :=
  ["cache:/api/v1/products", "product:", "popular_products:",
   "seller_products:", "search:", "related_products:"]

/-- Sequentially apply `clearCacheByPattern` for a list of patterns. -/
def runInvalidation (st : CacheState) (now : Nat) (ps : List String) : CacheState :=
  ps.foldl (fun s p => (clearCacheByPattern s now p).1) st

/-! ### Shared helper lemmas about the operations -/

/-- Effect of one pattern-delete round on any tier's key space: deleting
the keys that match `p` removes exactly the matching bindings. -/
theorem aget_delMatching {α : Type} (data : List (String × α)) (p k : String) :
    aget (delKeys data ((data.map Prod.fst).filter (fun x => strIncludes x p))) k
      = if strIncludes k p = true then none else aget data k := by
  rw [aget_delKeys]
  by_cases hm : strIncludes k p = true
  · rw [if_pos hm]
    by_cases hk : k ∈ (data.map Prod.fst).filter (fun x => strIncludes x p)
    · rw [if_pos hk]
    · rw [if_neg hk]
      refine aget_eq_none_of_not_mem data k (fun q hq hq1 => hk ?_)
      exact List.mem_filter.mpr ⟨hq1 ▸ List.mem_map_of_mem Prod.fst hq, hm⟩
  · rw [if_neg hm]
    have hk : k ∉ (data.map Prod.fst).filter (fun x => strIncludes x p) := by
      intro hmem
      exact hm (List.mem_filter.mp hmem).2
    rw [if_neg hk]

/-- The memory tier after `clearCacheByPattern`. -/
theorem clear_mem_aget (st : CacheState) (now : Nat) (p k : String) :
    aget (clearCacheByPattern st now p).1.mem.data k
      = if strIncludes k p = true then none else aget st.mem.data k := by
  unfold clearCacheByPattern
  by_cases ho : st.redis.isOpen = true <;> simp only [ho, if_true, if_false, Bool.false_eq_true]
  · exact aget_delMatching st.mem.data p k
  · exact aget_delMatching st.mem.data p k

/-- The distributed tier after `clearCacheByPattern`, when the client is
open. -/
theorem clear_redis_aget (st : CacheState) (now : Nat) (p k : String)
    (ho : st.redis.isOpen = true) :
    aget (clearCacheByPattern st now p).1.redis.data k
      = if strIncludes k p = true then none else aget st.redis.data k := by
  unfold clearCacheByPattern
  simp only [ho, if_true]
  by_cases hg : 0 < ((st.redis.data.map Prod.fst).filter (fun x => strIncludes x p)).length
  · simp only [hg, if_true]
    exact aget_delMatching st.redis.data p k
  · simp only [hg, if_false]
    by_cases hm : strIncludes k p = true
    · rw [if_pos hm]
      have hempty : (st.redis.data.map Prod.fst).filter (fun x => strIncludes x p) = [] := by
        rcases List.eq_nil_or_concat ((st.redis.data.map Prod.fst).filter
          (fun x => strIncludes x p)) with h | ⟨l, a, h⟩
        · exact h
        · exact absurd (h ▸ (by simp : 0 < (l.concat a).length)) hg
      refine aget_eq_none_of_not_mem st.redis.data k (fun q hq hq1 => ?_)
      have : k ∈ (st.redis.data.map Prod.fst).filter (fun x => strIncludes x p) :=
        List.mem_filter.mpr ⟨hq1 ▸ List.mem_map_of_mem Prod.fst hq, hm⟩
      rw [hempty] at this
      cases this
    · rw [if_neg hm]

/-- `clearCacheByPattern` never touches the distributed tier when the
client is not open. -/
theorem clear_redis_closed (st : CacheState) (now : Nat) (p : String)
    (ho : st.redis.isOpen = false) :
    (clearCacheByPattern st now p).1.redis = st.redis := by
  unfold clearCacheByPattern
  simp [ho]

/-- The memory tier written by a below-capacity `setCache`. -/
theorem setCache_mem_ok (st : CacheState) (now : Nat) (k : String) (v : Json)
    (ttl : Nat) (u : Bool) (hc : st.mem.data.length < st.mem.maxKeys) :
    (setCache st now k v ttl u).mem
      = { st.mem with data := aset st.mem.data k ⟨v, now + min ttl 300⟩ } := by
  unfold setCache memSet
  rw [if_neg (Nat.not_le.mpr hc)]
  by_cases h : (u && st.redis.isOpen) = true <;> simp [h]

/-! ### Concrete fixtures -/

/-- A far-future expiration instant used by the concrete fixtures. -/
def farFuture : Nat := 1000000

/-- 4999 filler entries whose keys all start with the character k. -/
def fillerData : List (String × MemEntry) :=
  (List.range 4999).map
    (fun i => (String.mk ('k' :: (toString i).data), ⟨Json.str "filler", farFuture⟩))

/-- A memory tier at its configured capacity of 5000 keys, holding a live
falsy entry under the response-cache key cache:/x plus 4999 fillers. -/
def fullMem : MemoryCache :=
  { data := ("cache:/x", ⟨Json.null, farFuture⟩) :: fillerData, maxKeys := 5000 }

/-- A disconnected redis client. -/
def closedRedis : RedisState := { isOpen := false, data := [] }

/-- Process state with the memory tier full and redis disconnected. -/
def fullState : CacheState := { mem := fullMem, redis := closedRedis }

/-- An empty memory tier with the configured 5000-key bound. -/
def emptyMem : MemoryCache := { data := [], maxKeys := 5000 }

/-- Empty cache state with an open redis connection. -/
def stEmptyOpen : CacheState := { mem := emptyMem, redis := { isOpen := true, data := [] } }

/-- Empty cache state with redis disconnected. -/
def stEmptyClosed : CacheState := { mem := emptyMem, redis := closedRedis }

theorem fillerData_length : fillerData.length = 4999 := by
  simp [fillerData]

theorem fullMem_length : fullMem.data.length = 5000 := by
  simp [fullMem, fillerData_length]

theorem fullMem_atCapacity : fullMem.maxKeys ≤ fullMem.data.length := by
  rw [fullMem_length]
  exact Nat.le_refl 5000

/-- A string whose first character is `c` differs from any string whose
character list does not start with `c`. -/
theorem mk_cons_ne (c : Char) (cs : List Char) (K : String)
    (h : K.data.head? ≠ some c) : String.mk (c :: cs) ≠ K := by
  intro he
  apply h
  rw [← he]
  rfl

theorem aget_fillerData_cache (s : String) (h : s.data.head? = some 'c') :
    aget fillerData s = none := by
  refine aget_eq_none_of_not_mem _ _ (fun p hp => ?_)
  rcases List.mem_map.mp hp with ⟨i, _, rfl⟩
  exact mk_cons_ne 'k' _ s (by rw [h]; decide)

theorem aget_fullMem_head : aget fullMem.data "cache:/x" = some ⟨Json.null, farFuture⟩ := by
  simp [fullMem, aget]

theorem aget_fullMem_absent : aget fullMem.data "cache:/y" = none := by
  refine aget_eq_none_of_not_mem _ _ (fun p hp => ?_)
  rcases List.mem_cons.mp hp with h | h
  · rw [h]
    decide
  · rcases List.mem_map.mp h with ⟨i, _, rfl⟩
    exact mk_cons_ne 'k' _ "cache:/y" (by decide)

theorem aget_fullMem_empty : aget fullMem.data "" = none := by
  refine aget_eq_none_of_not_mem _ _ (fun p hp => ?_)
  rcases List.mem_cons.mp hp with h | h
  · rw [h]
    decide
  · rcases List.mem_map.mp h with ⟨i, _, rfl⟩
    exact mk_cons_ne 'k' _ "" (by decide)

/-! ### Claim C9 -/

/-- C9 (code bug): the 200 stats body is the handler's evident intent —
and is exactly what its res.status(200).json call would build — but the
handler's first statement requires './src/middleware/cache' from
src/app.js, which resolves to the nonexistent src/src/middleware/cache
(the working import at the top of the same file uses
'./middleware/cache'; the './src/…' prefix is correct only from the
repository-root entry file).  So every GET /api/performance request
throws MODULE_NOT_FOUND inside the handler and the global error handler
responds 500 with {success: false, …} — never the claimed 200 body. -/
theorem performance_endpoint_bug :
    resolveRequire "src" "./src/middleware/cache" = "src/src/middleware/cache"
    ∧ moduleExists "src/src/middleware/cache" = false
    ∧ moduleExists (resolveRequire "src" "./middleware/cache") = true
    ∧ (∀ (st : CacheState) (m u e t : Json),
        performanceHandler st m u e t = .threw "Cannot find module ./src/middleware/cache")
    ∧ (∀ (st : CacheState) (m u e t : Json) (path ts : String),
        (dispatchHandler (performanceHandler st m u e t) path ts).1 = 500
        ∧ (dispatchHandler (performanceHandler st m u e t) path ts).2.field "success"
            = some (.bool false)) := by
  have hmiss : moduleExists (resolveRequire "src" "./src/middleware/cache") = false := by
    decide
  have hthrew : ∀ (st : CacheState) (m u e t : Json),
      performanceHandler st m u e t = .threw "Cannot find module ./src/middleware/cache" := by
    intro st m u e t
    unfold performanceHandler
    rw [if_neg (by simp [hmiss])]
  refine ⟨by decide, by decide, by decide, hthrew, ?_⟩
  intro st m u e t path ts
  rw [hthrew st m u e t]
  exact ⟨rfl, rfl⟩

/-! ### Claim C10 -/

/-- C10: invalidation with the empty-string pattern is total eviction: it
empties the memory tier, empties the distributed keyspace when the client
is open, and coincides with clearAllCache on every state; no precondition
restricts the pattern argument. -/
theorem invalidateEmptyPattern_spec (st : CacheState) (now : Nat) :
    (clearCacheByPattern st now "").1 = clearAllCache st
    ∧ (clearCacheByPattern st now "").1.mem.data = []
    ∧ (clearCacheByPattern st now "").2 = none := by
  obtain ⟨⟨mdata, mmax⟩, ⟨ro, rdata⟩⟩ := st
  have hfs : ∀ (l : List String), l.filter (fun k => strIncludes k "") = l :=
    fun l => List.filter_eq_self.mpr (fun a _ => strIncludes_empty a)
  have hdel : ∀ {α : Type} (l : List (String × α)), delKeys l (l.map Prod.fst) = [] := by
    intro α l
    refine List.filter_eq_nil_iff.mpr (fun kv hkv => ?_)
    simp [List.mem_map_of_mem Prod.fst hkv]
  unfold clearCacheByPattern clearAllCache
  simp only [hfs, hdel]
  cases ro with
  | false => simp
  | true =>
    cases rdata with
    | nil => simp
    | cons hd tl => simp

/-! ### Claim C1 -/

/-- Fixture for pattern invalidation: both tiers hold products:a,
products:b and other:c, redis connected. -/
def prodMemData : List (String × MemEntry) :=
  [("products:a", ⟨Json.str "1", 1000⟩), ("products:b", ⟨Json.str "2", 1000⟩),
   ("other:c", ⟨Json.str "3", 1000⟩)]

def prodRedisData : List (String × RedisEntry) :=
  [("products:a", ⟨Json.str "1", 1000⟩), ("products:b", ⟨Json.str "2", 1000⟩),
   ("other:c", ⟨Json.str "3", 1000⟩)]

def stProducts : CacheState :=
  { mem := { data := prodMemData, maxKeys := 5000 },
    redis := { isOpen := true, data := prodRedisData } }

/-- C1 (amended): clearCacheByPattern removes from the memory tier exactly
the keys containing the pattern as a substring; it does the same on the
distributed tier when the client is open and leaves that tier untouched
when it is closed; and it returns no count at all (the source function has
no return statement — the combined count only appears in a debug log). -/
theorem invalidatePattern_spec (st : CacheState) (now : Nat) (p k : String) :
    (clearCacheByPattern st now p).2 = none
    ∧ (strIncludes k p = true → aget (clearCacheByPattern st now p).1.mem.data k = none)
    ∧ (strIncludes k p = false →
        aget (clearCacheByPattern st now p).1.mem.data k = aget st.mem.data k)
    ∧ (st.redis.isOpen = true → strIncludes k p = true →
        aget (clearCacheByPattern st now p).1.redis.data k = none)
    ∧ (st.redis.isOpen = true → strIncludes k p = false →
        aget (clearCacheByPattern st now p).1.redis.data k = aget st.redis.data k)
    ∧ (st.redis.isOpen = false → (clearCacheByPattern st now p).1.redis = st.redis) := by
  refine ⟨?_, ?_, ?_, ?_, ?_, ?_⟩
  · unfold clearCacheByPattern
    by_cases ho : st.redis.isOpen = true <;> simp [ho]
  · intro hm; rw [clear_mem_aget, if_pos hm]
  · intro hm; rw [clear_mem_aget, if_neg (by simp [hm])]
  · intro ho hm; rw [clear_redis_aget st now p k ho, if_pos hm]
  · intro ho hm; rw [clear_redis_aget st now p k ho, if_neg (by simp [hm])]
  · intro ho; exact clear_redis_closed st now p ho

/-- C1 witness: on the concrete two-tier state, invalidating products
removes products:a from memory and products:b from redis, and the call
hands back no count. -/
theorem invalidatePattern_spec_witness :
    (clearCacheByPattern stProducts 0 "products").2 = none
    ∧ aget (clearCacheByPattern stProducts 0 "products").1.mem.data "products:a" = none
    ∧ aget (clearCacheByPattern stProducts 0 "products").1.redis.data "products:b" = none :=
  ⟨(invalidatePattern_spec stProducts 0 "products" "products:a").1,
   (invalidatePattern_spec stProducts 0 "products" "products:a").2.1 (by decide),
   (invalidatePattern_spec stProducts 0 "products" "products:b").2.2.2.1 rfl (by decide)⟩

/-- C1 counterexample: with products:a, products:b, other:c in both tiers,
invalidate("products") does remove two keys from each tier, but the call
returns undefined rather than the combined count 4 the claim promises. -/
theorem invalidatePattern_counterexample :
    (clearCacheByPattern stProducts 0 "products").2 = none
    ∧ (clearCacheByPattern stProducts 0 "products").2 ≠ some 4
    ∧ (clearCacheByPattern stProducts 0 "products").1.mem.data.length = 1
    ∧ (clearCacheByPattern stProducts 0 "products").1.redis.data.length = 1
    ∧ stProducts.mem.data.length = 3 ∧ stProducts.redis.data.length = 3 := by
  decide

/-! ### Claim C4 -/

/-- C4 (amended): a failed redis connection during startServer makes the
process log and exit with code 1 (fail-fast), not continue serving; the
degraded no-op behaviour the spec describes holds only for a client that
is not open after startup: with isOpen = false every facade operation
skips the distributed tier entirely. -/
theorem redisDegradation_spec :
    (∀ dbConn : StepResult, startServer .success .failure dbConn = .exited 1)
    ∧ (∀ (st : CacheState) (now : Nat) (k : String) (v : Json) (ttl : Nat) (u : Bool),
        st.redis.isOpen = false → (setCache st now k v ttl u).redis = st.redis)
    ∧ (∀ (st : CacheState) (now : Nat) (k : String) (u : Bool),
        st.redis.isOpen = false →
          (getCache st now k u).2 = st
          ∧ (getCache st now k u).1
              = (if jsTruthyOpt (memGet st.mem now k) = true then memGet st.mem now k else none))
    ∧ (∀ (st : CacheState) (now : Nat) (p : String),
        st.redis.isOpen = false → (clearCacheByPattern st now p).1.redis = st.redis) := by
  refine ⟨fun dbConn => rfl, ?_, ?_, ?_⟩
  · intro st now k v ttl u ho
    unfold setCache
    cases hs : memSet st.mem now k v (min ttl 300) with
    | error e => rfl
    | ok m => simp [ho]
  · intro st now k u ho
    unfold getCache
    by_cases ht : jsTruthyOpt (memGet st.mem now k) = true
    · simp [ht]
    · simp [ht, ho]
  · intro st now p ho
    exact clear_redis_closed st now p ho

/-- C4 witness: with the client not open, setCache leaves the distributed
tier untouched and getCache leaves the state unchanged. -/
theorem redisDegradation_spec_witness :
    (setCache stEmptyClosed 0 "k" (Json.str "v") 100 true).redis = stEmptyClosed.redis
    ∧ (getCache stEmptyClosed 0 "k" true).2 = stEmptyClosed :=
  ⟨redisDegradation_spec.2.1 stEmptyClosed 0 "k" (Json.str "v") 100 true rfl,
   (redisDegradation_spec.2.2.1 stEmptyClosed 0 "k" true rfl).1⟩

/-- C4 counterexample: when the startup redis connection fails, startServer
exits with code 1 — the process does not keep listening, contradicting the
claim that a startup connection failure never exits the process. -/
theorem redisDegradation_counterexample :
    startServer .success .failure .success = .exited 1
    ∧ startServer .success .failure .success ≠ .listening := by
  decide

/-! ### Claim C5 -/

/-- C5 (amended): when the memory tier already holds its configured
maximum of keys, a set is rejected with ECACHEFULL (node-cache performs no
eviction) and setCache absorbs the error leaving the state unchanged, so
the new key is NOT stored; the true half of the claim — the key count
never exceeds the configured ceiling — holds: every successful memSet
stays within maxKeys. -/
theorem memoryCapacity_spec :
    (∀ (st : CacheState) (now : Nat) (k : String) (v : Json) (ttl : Nat) (u : Bool),
        st.mem.maxKeys ≤ st.mem.data.length → setCache st now k v ttl u = st)
    ∧ (∀ (c : MemoryCache) (now : Nat) (k : String) (v : Json) (ttl : Nat),
        c.maxKeys ≤ c.data.length → memSet c now k v ttl = .error .ecachefull)
    ∧ (∀ (c : MemoryCache) (now : Nat) (k : String) (v : Json) (ttl : Nat),
        c.data.length < c.maxKeys →
          ∃ c', memSet c now k v ttl = .ok c'
            ∧ c'.data.length ≤ c.maxKeys
            ∧ aget c'.data k = some ⟨v, now + ttl⟩) := by
  refine ⟨?_, ?_, ?_⟩
  · intro st now k v ttl u hcap
    unfold setCache memSet
    rw [if_pos hcap]
  · intro c now k v ttl hcap
    unfold memSet
    rw [if_pos hcap]
  · intro c now k v ttl hcap
    refine ⟨{ c with data := aset c.data k ⟨v, now + ttl⟩ }, ?_, ?_, aget_aset_self _ _ _⟩
    · unfold memSet
      rw [if_neg (Nat.not_le.mpr hcap)]
    · rcases aset_length c.data k (⟨v, now + ttl⟩ : MemEntry) with h | h
      · simp only [h]
        exact Nat.le_of_lt hcap
      · simp only [h]
        omega

/-- C5 witness: the at-capacity clause applied to the concrete full store,
and the below-capacity clause applied to the empty store. -/
theorem memoryCapacity_spec_witness :
    setCache fullState 0 "newkey" (Json.str "v") 120 true = fullState
    ∧ ∃ c', memSet emptyMem 0 "k" (Json.str "v") 60 = .ok c'
        ∧ c'.data.length ≤ emptyMem.maxKeys
        ∧ aget c'.data "k" = some ⟨Json.str "v", 0 + 60⟩ :=
  ⟨memoryCapacity_spec.1 fullState 0 "newkey" (Json.str "v") 120 true fullMem_atCapacity,
   memoryCapacity_spec.2.2 emptyMem 0 "k" (Json.str "v") 60 (by decide)⟩

/-- C5 counterexample: a memory tier with exactly 5000 keys and a fresh key
(the empty string, stored nowhere): setCache does not evict anything — the
state is unchanged and the new key is still absent afterwards,
contradicting "set(k, v, ttl) succeeds by evicting some existing entry, so
that k is stored afterwards". -/
theorem memoryCapacity_counterexample :
    fullState.mem.data.length = fullState.mem.maxKeys
    ∧ aget fullState.mem.data "" = none
    ∧ setCache fullState 0 "" (Json.str "v") 100 true = fullState
    ∧ aget (setCache fullState 0 "" (Json.str "v") 100 true).mem.data "" = none := by
  have h1 : fullState.mem.data.length = fullState.mem.maxKeys := fullMem_length
  have h3 : setCache fullState 0 "" (Json.str "v") 100 true = fullState := by
    unfold setCache memSet
    rw [if_pos (show fullState.mem.maxKeys ≤ fullState.mem.data.length from fullMem_atCapacity)]
  exact ⟨h1, aget_fullMem_empty, h3, by rw [h3]; exact aget_fullMem_empty⟩

/-! ### Claim C7 -/

/-- C7 (amended): after setCache(k, v, ttl) in a below-capacity process, an
immediate getCache(k) returns v whenever v is JS-truthy (regardless of the
distributed tier's availability).  For a falsy v the memory hit check in
getCache bypasses the stored value — see the counterexample. -/
theorem writeThenRead_spec (st : CacheState) (now : Nat) (k : String) (v : Json)
    (ttl : Nat) (u u' : Bool) (hcap : st.mem.data.length < st.mem.maxKeys)
    (htr : v.truthy = true) :
    (getCache (setCache st now k v ttl u) now k u').1 = some v := by
  have hmem := setCache_mem_ok st now k v ttl u hcap
  have hget : memGet (setCache st now k v ttl u).mem now k = some v := by
    rw [hmem]
    simp [memGet, aget_aset_self]
  unfold getCache
  simp [hget, jsTruthyOpt, htr]

/-- C7 witness: write-then-read roundtrip of a truthy value on the empty
open-redis state. -/
theorem writeThenRead_spec_witness :
    (getCache (setCache stEmptyOpen 0 "k" (Json.str "x") 100 true) 0 "k" true).1
      = some (Json.str "x") :=
  writeThenRead_spec stEmptyOpen 0 "k" (Json.str "x") 100 true true (by decide) (by decide)

/-- C7 counterexample: with the distributed tier closed, setCache stores
the falsy payload false under k (the entry is live in the memory tier),
yet the immediate getCache(k) returns null instead of the stored value:
the JS truthiness test skips the memory hit and the redis fallback is
unavailable. -/
theorem writeThenRead_counterexample :
    aget (setCache stEmptyClosed 0 "k" (Json.bool false) 100 true).mem.data "k"
      = some ⟨Json.bool false, 100⟩
    ∧ (getCache (setCache stEmptyClosed 0 "k" (Json.bool false) 100 true) 0 "k" true).1
      = none :=
  ⟨rfl, rfl⟩

/-! ### Claim C8 -/

/-- Fixture: the key population a product write invalidates, plus an
unrelated key. -/
def ctrlMemData : List (String × MemEntry) :=
  [("cache:/api/v1/products?page=1", ⟨Json.str "r1", 1000⟩),
   ("product:42", ⟨Json.str "r2", 1000⟩),
   ("popular_products:v1", ⟨Json.str "r3", 1000⟩),
   ("seller_products:7", ⟨Json.str "r4", 1000⟩),
   ("search:abc", ⟨Json.str "r5", 1000⟩),
   ("related_products:42", ⟨Json.str "r6", 1000⟩),
   ("user:1", ⟨Json.str "r7", 1000⟩)]

def stCtrl : CacheState :=
  { mem := { data := ctrlMemData, maxKeys := 5000 }, redis := closedRedis }

/-- Fixture for the C8 counterexample. -/
def stRelated : CacheState :=
  { mem := { data := [("related_products:42", ⟨Json.str "x", 1000⟩),
                      ("popular_products:9", ⟨Json.str "y", 1000⟩),
                      ("product:1", ⟨Json.str "z", 1000⟩)],
             maxKeys := 5000 },
    redis := closedRedis }

/-- C8 (amended): pattern invalidation is simple substring containment on
both tiers, and the over-match is real: invalidating product also removes
any seller_products key.  But the substring relation does NOT make the
pattern product: reach keys prefixed related_products: or
popular_products: (the s before the colon breaks the match); the product
controller clears those families by firing their own dedicated patterns,
whose combined run does evict every product-related key while sparing
unrelated ones. -/
theorem patternMatching_spec :
    (∀ (st : CacheState) (now : Nat) (p k : String),
        aget (clearCacheByPattern st now p).1.mem.data k
          = if strIncludes k p = true then none else aget st.mem.data k)
    ∧ (∀ s : String, strIncludes ("seller_products:" ++ s) "product" = true)
    ∧ strIncludes "related_products:42" "product:" = false
    ∧ strIncludes "popular_products:9" "product:" = false
    ∧ (runInvalidation stCtrl 0 productInvalidationPatterns).mem.data.length = 1
    ∧ (aget (runInvalidation stCtrl 0 productInvalidationPatterns).mem.data "user:1").isSome
        = true := by
  refine ⟨clear_mem_aget, ?_, by decide, by decide, by decide, by decide⟩
  intro s
  unfold strIncludes
  rw [hasInfix_iff, String.data_append]
  have h1 : "product".data <:+: "seller_products:".data := (hasInfix_iff _ _).mp (by decide)
  exact h1.trans ⟨[], s.data, by simp⟩

/-- C8 counterexample: clearing the pattern product: removes product:1 but
leaves both related_products:42 and popular_products:9 in place,
contradicting the claim that the broad match clears those prefixes. -/
theorem patternMatching_counterexample :
    (aget (clearCacheByPattern stRelated 0 "product:").1.mem.data "related_products:42").isSome
      = true
    ∧ (aget (clearCacheByPattern stRelated 0 "product:").1.mem.data "popular_products:9").isSome
      = true
    ∧ (aget (clearCacheByPattern stRelated 0 "product:").1.mem.data "product:1").isNone
      = true := by
  decide

/-! ### Claim C6 -/

/-- Fixture: a key living only in the distributed tier. -/
def stRedisOnly : CacheState :=
  { mem := emptyMem, redis := { isOpen := true, data := [("k", ⟨Json.str "v", 100⟩)] } }

/-- C6 (amended): at write time the ordering holds — setCache stores the
memory entry with min(ttl, 300) and the distributed entry with the full
ttl, so the memory expiration never exceeds the distributed one.  A
distributed-tier hit backfills memory with the FIXED 60s TTL: that is
within the 300s local ceiling, but is independent of the distributed
entry's remaining TTL and can exceed it (see the counterexample). -/
theorem ttlOrdering_spec :
    (∀ (st : CacheState) (now : Nat) (k : String) (v : Json) (ttl : Nat),
        st.redis.isOpen = true → st.mem.data.length < st.mem.maxKeys →
          aget (setCache st now k v ttl true).mem.data k = some ⟨v, now + min ttl 300⟩
          ∧ aget (setCache st now k v ttl true).redis.data k = some ⟨v, now + ttl⟩
          ∧ now + min ttl 300 ≤ now + ttl)
    ∧ (∀ (st : CacheState) (now : Nat) (k : String) (v : Json),
        jsTruthyOpt (memGet st.mem now k) = false →
        st.redis.isOpen = true →
        redisGet st.redis now k = some v →
        st.mem.data.length < st.mem.maxKeys →
          ∃ m, memSet st.mem now k v 60 = .ok m
            ∧ getCache st now k true = (some v, { st with mem := m })
            ∧ aget m.data k = some ⟨v, now + 60⟩
            ∧ 60 ≤ 300) := by
  constructor
  · intro st now k v ttl ho hcap
    have hmem := setCache_mem_ok st now k v ttl true hcap
    have hredis : (setCache st now k v ttl true).redis = redisSetEx st.redis now k v ttl := by
      unfold setCache memSet
      rw [if_neg (Nat.not_le.mpr hcap)]
      simp [ho]
    refine ⟨?_, ?_, Nat.add_le_add_left (Nat.min_le_left ttl 300) now⟩
    · rw [hmem]
      exact aget_aset_self _ _ _
    · rw [hredis]
      unfold redisSetEx
      exact aget_aset_self _ _ _
  · intro st now k v hm ho hr hcap
    have hset : memSet st.mem now k v 60
        = .ok { st.mem with data := aset st.mem.data k ⟨v, now + 60⟩ } := by
      unfold memSet
      rw [if_neg (Nat.not_le.mpr hcap)]
    refine ⟨{ st.mem with data := aset st.mem.data k ⟨v, now + 60⟩ }, hset, ?_,
      aget_aset_self _ _ _, by omega⟩
    unfold getCache
    simp [hm, ho, hr, hset, jsonStringify_ne_empty v]

/-- C6 witness: both clauses at concrete states — a 3600s write on the
empty open state, and a distributed-only key backfilled through
getCache. -/
theorem ttlOrdering_spec_witness :
    (aget (setCache stEmptyOpen 0 "k" (Json.str "v") 3600 true).mem.data "k"
       = some ⟨Json.str "v", 0 + min 3600 300⟩
     ∧ aget (setCache stEmptyOpen 0 "k" (Json.str "v") 3600 true).redis.data "k"
       = some ⟨Json.str "v", 0 + 3600⟩
     ∧ 0 + min 3600 300 ≤ 0 + 3600)
    ∧ ∃ m, memSet stRedisOnly.mem 0 "k" (Json.str "v") 60 = .ok m
        ∧ getCache stRedisOnly 0 "k" true = (some (Json.str "v"), { stRedisOnly with mem := m })
        ∧ aget m.data "k" = some ⟨Json.str "v", 0 + 60⟩
        ∧ 60 ≤ 300 :=
  ⟨ttlOrdering_spec.1 stEmptyOpen 0 "k" (Json.str "v") 3600 rfl (by decide),
   ttlOrdering_spec.2 stRedisOnly 0 "k" (Json.str "v") rfl rfl rfl (by decide)⟩

/-- C6 counterexample: write k with ttl 3600 (memory 300s, redis 3600s);
at t = 3550 the memory copy has expired and the redis copy has 50s left;
the read backfills memory until t = 3610, so while both tiers hold the
key, the memory entry's remaining TTL (60s) EXCEEDS the distributed
entry's remaining TTL (50s), contradicting the claimed invariant. -/
theorem ttlOrdering_counterexample :
    aget ((getCache (setCache stEmptyOpen 0 "k" (Json.str "v") 3600 true) 3550 "k" true).2).mem.data "k"
      = some ⟨Json.str "v", 3610⟩
    ∧ aget ((getCache (setCache stEmptyOpen 0 "k" (Json.str "v") 3600 true) 3550 "k" true).2).redis.data "k"
      = some ⟨Json.str "v", 3600⟩
    ∧ ¬(3610 - 3550 ≤ 3600 - 3550) :=
  ⟨rfl, rfl, by decide⟩

/-! ### Claim C2 -/

/-- Discriminator: did the domain handler execute for this request? -/
def ReqResult.handlerRan : ReqResult → Bool
  | .fromHandler _ _ => true
  | _ => false

/-- A GET request whose memory tier is not JS-truthy at the key reduces to
the redis stage. -/
theorem handleRequest_toRedisStage (d : Nat) (u : Bool) (st : CacheState) (now : Nat)
    (req : Request) (handler : Nat × Json)
    (hg : req.method = "GET")
    (hm : jsTruthyOpt (memGet st.mem now (cacheKey req)) = false) :
    handleRequest d u st now req handler = redisStage d u (cacheKey req) st now handler := by
  simp only [handleRequest, if_neg (by simp [hg] : ¬req.method ≠ "GET")]
  cases hmem : memGet st.mem now (cacheKey req) with
  | none => rfl
  | some v =>
    have hv : v.truthy = false := by
      rw [hmem] at hm
      simpa [jsTruthyOpt] using hm
    simp [hv]

/-- A redis hit whose backfill set succeeds short-circuits with the cached
payload. -/
theorem redisStage_redisHit (d : Nat) (u : Bool) (key : String) (st : CacheState)
    (now : Nat) (handler : Nat × Json) (v : Json) (m : MemoryCache)
    (ho : (u && st.redis.isOpen) = true)
    (hr : redisGet st.redis now key = some v)
    (hset : memSet st.mem now key v 60 = .ok m) :
    redisStage d u key st now handler = .fromCache v { st with mem := m } := by
  unfold redisStage
  rw [if_pos ho]
  simp only [hr]
  rw [if_neg (jsonStringify_ne_empty v)]
  simp only [hset]

/-- No redis hit (disabled, closed, or missing key) falls through to the
miss stage. -/
theorem redisStage_toMiss (d : Nat) (u : Bool) (key : String) (st : CacheState)
    (now : Nat) (handler : Nat × Json)
    (hno : (u && st.redis.isOpen) = true → redisGet st.redis now key = none) :
    redisStage d u key st now handler = missStage d u key st now handler := by
  unfold redisStage
  by_cases ho : (u && st.redis.isOpen) = true
  · rw [if_pos ho, hno ho]
  · rw [if_neg ho]

/-- The patched res.json on a 2xx status with a successful memory set. -/
theorem patchedJson_2xx (d : Nat) (u : Bool) (key : String) (st : CacheState)
    (now : Nat) (status : Nat) (data : Json) (m : MemoryCache)
    (h2 : 200 ≤ status) (h3 : status < 300)
    (hset : memSet st.mem now key data (min d 300) = .ok m) :
    patchedJson d u key st now status data
      = .fromHandler data
          (if (u && st.redis.isOpen) = true then
             { mem := m, redis := redisSetEx st.redis now key data d }
           else { st with mem := m }) := by
  unfold patchedJson
  rw [if_pos ⟨h2, h3⟩, hset]

/-- The patched res.json forwards a non-2xx response without caching. -/
theorem patchedJson_non2xx (d : Nat) (u : Bool) (key : String) (st : CacheState)
    (now : Nat) (status : Nat) (data : Json)
    (h : ¬(200 ≤ status ∧ status < 300)) :
    patchedJson d u key st now status data = .fromHandler data st := by
  unfold patchedJson
  rw [if_neg h]

/-- C2 (amended): the middleware applies only to GET requests; the key is
cache: plus the original URL; a memory-tier hit short-circuits only when
the cached payload is JS-truthy (a cached falsy payload is treated as a
miss — see the counterexample); a redis hit short-circuits after a
successful 60s memory backfill; on a genuine miss with a below-capacity
memory tier, a 2xx payload is stored in memory with min(duration, 300)
and, when useRedis and the client is open, in redis with the full
duration; a non-2xx payload is never written to either tier. -/
theorem cacheMiddleware_spec (d : Nat) (u : Bool) (st : CacheState) (now : Nat)
    (req : Request) (handler : Nat × Json) :
    (req.method ≠ "GET" →
        handleRequest d u st now req handler = .fromHandler handler.2 st)
    ∧ (∀ v, req.method = "GET" → memGet st.mem now (cacheKey req) = some v →
        v.truthy = true →
        handleRequest d u st now req handler = .fromCache v st)
    ∧ (∀ v, req.method = "GET" → jsTruthyOpt (memGet st.mem now (cacheKey req)) = false →
        (u && st.redis.isOpen) = true → redisGet st.redis now (cacheKey req) = some v →
        st.mem.data.length < st.mem.maxKeys →
        ∃ m, memSet st.mem now (cacheKey req) v 60 = .ok m
          ∧ handleRequest d u st now req handler = .fromCache v { st with mem := m })
    ∧ (req.method = "GET" → jsTruthyOpt (memGet st.mem now (cacheKey req)) = false →
        ((u && st.redis.isOpen) = true → redisGet st.redis now (cacheKey req) = none) →
        200 ≤ handler.1 → handler.1 < 300 →
        st.mem.data.length < st.mem.maxKeys →
        ∃ m, memSet st.mem now (cacheKey req) handler.2 (min d 300) = .ok m
          ∧ aget m.data (cacheKey req) = some ⟨handler.2, now + min d 300⟩
          ∧ handleRequest d u st now req handler
              = .fromHandler handler.2
                  (if (u && st.redis.isOpen) = true then
                     { mem := m, redis := redisSetEx st.redis now (cacheKey req) handler.2 d }
                   else { st with mem := m }))
    ∧ (req.method = "GET" → jsTruthyOpt (memGet st.mem now (cacheKey req)) = false →
        ((u && st.redis.isOpen) = true → redisGet st.redis now (cacheKey req) = none) →
        ¬(200 ≤ handler.1 ∧ handler.1 < 300) →
        handleRequest d u st now req handler = .fromHandler handler.2 st) := by
  refine ⟨?_, ?_, ?_, ?_, ?_⟩
  · intro h
    unfold handleRequest
    rw [if_pos h]
  · intro v hg hmem htr
    simp only [handleRequest, if_neg (by simp [hg] : ¬req.method ≠ "GET"), hmem, htr, if_true]
  · intro v hg hm ho hr hcap
    refine ⟨{ st.mem with data := aset st.mem.data (cacheKey req) ⟨v, now + 60⟩ }, ?_, ?_⟩
    · unfold memSet
      rw [if_neg (Nat.not_le.mpr hcap)]
    · rw [handleRequest_toRedisStage d u st now req handler hg hm]
      exact redisStage_redisHit d u (cacheKey req) st now handler v _ ho hr
        (by unfold memSet; rw [if_neg (Nat.not_le.mpr hcap)])
  · intro hg hm hno h2 h3 hcap
    have hset : memSet st.mem now (cacheKey req) handler.2 (min d 300)
        = .ok { st.mem with data := aset st.mem.data (cacheKey req) ⟨handler.2, now + min d 300⟩ } := by
      unfold memSet
      rw [if_neg (Nat.not_le.mpr hcap)]
    refine ⟨_, hset, aget_aset_self _ _ _, ?_⟩
    rw [handleRequest_toRedisStage d u st now req handler hg hm,
      redisStage_toMiss d u (cacheKey req) st now handler hno]
    unfold missStage
    exact patchedJson_2xx d u (cacheKey req) st now handler.1 handler.2 _ h2 h3 hset
  · intro hg hm hno hns
    rw [handleRequest_toRedisStage d u st now req handler hg hm,
      redisStage_toMiss d u (cacheKey req) st now handler hno]
    unfold missStage
    exact patchedJson_non2xx d u (cacheKey req) st now handler.1 handler.2 hns

/-- C2 witness: the miss-then-store clause on the empty open state with a
200 response. -/
theorem cacheMiddleware_spec_witness :
    ∃ m, memSet stEmptyOpen.mem 0 (cacheKey ⟨"GET", "/p"⟩) (Json.str "fresh") (min 300 300) = .ok m
      ∧ aget m.data (cacheKey ⟨"GET", "/p"⟩) = some ⟨Json.str "fresh", 0 + min 300 300⟩
      ∧ handleRequest 300 true stEmptyOpen 0 ⟨"GET", "/p"⟩ (200, Json.str "fresh")
          = .fromHandler (Json.str "fresh")
              (if (true && stEmptyOpen.redis.isOpen) = true then
                 { mem := m,
                   redis := redisSetEx stEmptyOpen.redis 0 (cacheKey ⟨"GET", "/p"⟩)
                     (Json.str "fresh") 300 }
               else { stEmptyOpen with mem := m }) :=
  (cacheMiddleware_spec 300 true stEmptyOpen 0 ⟨"GET", "/p"⟩ (200, Json.str "fresh")).2.2.2.1
    rfl rfl (fun _ => rfl) (by decide) (by decide) (by decide)

/-- A process state in which a previous 200 response cached the falsy
payload null under the response-cache key; redis disconnected. -/
def stStaleNull : CacheState :=
  { mem := { data := [("cache:/p", ⟨Json.null, 300⟩)], maxKeys := 5000 },
    redis := closedRedis }

/-- C2 counterexample: the memory tier holds a live entry for the GET key
(a hit in that tier), yet the middleware runs the domain handler anyway,
because the cached payload null fails the JS truthiness test —
contradicting "on a hit in either tier it sends the cached payload and the
domain handler never executes". -/
theorem cacheMiddleware_counterexample :
    (memGet stStaleNull.mem 0 (cacheKey ⟨"GET", "/p"⟩)).isSome = true
    ∧ (handleRequest 300 true stStaleNull 0 ⟨"GET", "/p"⟩ (200, Json.str "fresh")).handlerRan
      = true :=
  ⟨rfl, rfl⟩

/-! ### Claim C3 -/

/-- An errored result can only come out of the patched res.json, and only
in the 2xx-at-capacity case. -/
theorem patchedJson_errored (d : Nat) (u : Bool) (key : String) (st : CacheState)
    (now : Nat) (status : Nat) (data : Json) (e : CacheError) (st' : CacheState)
    (h : patchedJson d u key st now status data = .errored e st') :
    200 ≤ status ∧ status < 300 ∧ st.mem.maxKeys ≤ st.mem.data.length
    ∧ e = .ecachefull ∧ st' = st := by
  unfold patchedJson at h
  by_cases h2 : 200 ≤ status ∧ status < 300
  · rw [if_pos h2] at h
    by_cases hcap : st.mem.maxKeys ≤ st.mem.data.length
    · unfold memSet at h
      rw [if_pos hcap] at h
      injection h with he hst
      exact ⟨h2.1, h2.2, hcap, he.symm, hst.symm⟩
    · unfold memSet at h
      rw [if_neg hcap] at h
      simp at h
  · rw [if_neg h2] at h
    simp at h

/-- Lifting the characterization through the redis stage. -/
theorem redisStage_errored (d : Nat) (u : Bool) (key : String) (st : CacheState)
    (now : Nat) (handler : Nat × Json) (e : CacheError) (st' : CacheState)
    (h : redisStage d u key st now handler = .errored e st') :
    200 ≤ handler.1 ∧ handler.1 < 300 ∧ st.mem.maxKeys ≤ st.mem.data.length
    ∧ e = .ecachefull ∧ st' = st := by
  unfold redisStage at h
  by_cases ho : (u && st.redis.isOpen) = true
  · rw [if_pos ho] at h
    cases hr : redisGet st.redis now key with
    | none =>
      simp only [hr] at h
      unfold missStage at h
      exact patchedJson_errored d u key st now handler.1 handler.2 e st' h
    | some v =>
      simp only [hr] at h
      by_cases hs : jsonStringify v = ""
      · rw [if_pos hs] at h
        unfold missStage at h
        exact patchedJson_errored d u key st now handler.1 handler.2 e st' h
      · rw [if_neg hs] at h
        cases hset : memSet st.mem now key v 60 with
        | error e0 =>
          simp only [hset] at h
          exact ReqResult.noConfusion h
        | ok m =>
          simp only [hset] at h
          exact ReqResult.noConfusion h
  · rw [if_neg ho] at h
    unfold missStage at h
    exact patchedJson_errored d u key st now handler.1 handler.2 e st' h

/-- C3 (amended): the facade operations absorb every internal failure —
getCache turns even a capacity-full backfill into a plain miss and
setCache leaves the state unchanged — but the middleware's patched
res.json is NOT protected by any try/catch: the one failure that escapes
to the request path is the memory tier's ECACHEFULL on a 2xx response
with the store at capacity, and that is the only way an exception
escapes. -/
theorem cacheFailure_spec :
    (∀ (d : Nat) (u : Bool) (st : CacheState) (now : Nat) (req : Request)
        (handler : Nat × Json) (e : CacheError) (st' : CacheState),
        handleRequest d u st now req handler = .errored e st' →
          req.method = "GET" ∧ 200 ≤ handler.1 ∧ handler.1 < 300
          ∧ st.mem.maxKeys ≤ st.mem.data.length ∧ e = .ecachefull ∧ st' = st)
    ∧ (∀ (st : CacheState) (now : Nat) (k : String) (u : Bool),
        st.mem.maxKeys ≤ st.mem.data.length →
        jsTruthyOpt (memGet st.mem now k) = false →
        getCache st now k u = (none, st))
    ∧ (∀ (st : CacheState) (now : Nat) (k : String) (v : Json) (ttl : Nat) (u : Bool),
        st.mem.maxKeys ≤ st.mem.data.length → setCache st now k v ttl u = st) := by
  refine ⟨?_, ?_, ?_⟩
  · intro d u st now req handler e st' h
    by_cases hg : req.method ≠ "GET"
    · unfold handleRequest at h
      rw [if_pos hg] at h
      simp at h
    · have hg' : req.method = "GET" := not_not.mp hg
      simp only [handleRequest, if_neg hg] at h
      cases hmem : memGet st.mem now (cacheKey req) with
      | some v =>
        simp only [hmem] at h
        by_cases ht : v.truthy = true
        · rw [if_pos ht] at h
          simp at h
        · rw [if_neg ht] at h
          have hc := redisStage_errored d u (cacheKey req) st now handler e st' h
          exact ⟨hg', hc.1, hc.2.1, hc.2.2.1, hc.2.2.2.1, hc.2.2.2.2⟩
      | none =>
        simp only [hmem] at h
        have hc := redisStage_errored d u (cacheKey req) st now handler e st' h
        exact ⟨hg', hc.1, hc.2.1, hc.2.2.1, hc.2.2.2.1, hc.2.2.2.2⟩
  · intro st now k u hcap hm
    unfold getCache
    by_cases ho : (u && st.redis.isOpen) = true
    · cases hr : redisGet st.redis now k with
      | none => simp [hm, ho, hr]
      | some v =>
        have hset : memSet st.mem now k v 60 = .error .ecachefull := by
          unfold memSet
          rw [if_pos hcap]
        simp [hm, ho, hr, hset, jsonStringify_ne_empty v]
    · simp [hm, ho]
  · intro st now k v ttl u hcap
    unfold setCache memSet
    rw [if_pos hcap]

/-- The concrete GET request used against the full store; its cache key
cache:/y is stored in neither tier. -/
def fullReq : Request := ⟨"GET", "/y"⟩

/-- On the at-capacity store, the miss path's patched res.json raises
ECACHEFULL, which escapes to the caller of res.json. -/
theorem full_request_errored :
    handleRequest 300 true fullState 0 fullReq (200, Json.str "data")
      = .errored .ecachefull fullState := by
  have hget : memGet fullState.mem 0 (cacheKey fullReq) = none := by
    show memGet fullState.mem 0 "cache:/y" = none
    unfold memGet
    rw [show aget fullState.mem.data "cache:/y" = none from aget_fullMem_absent]
  have hm : jsTruthyOpt (memGet fullState.mem 0 (cacheKey fullReq)) = false := by
    rw [hget]
    rfl
  rw [handleRequest_toRedisStage 300 true fullState 0 fullReq (200, Json.str "data") rfl hm,
    redisStage_toMiss 300 true (cacheKey fullReq) fullState 0 (200, Json.str "data")
      (fun hopen => absurd hopen (by decide))]
  unfold missStage patchedJson
  rw [if_pos (by omega : 200 ≤ (200, Json.str "data").1 ∧ (200, Json.str "data").1 < 300)]
  unfold memSet
  rw [if_pos (show fullState.mem.maxKeys ≤ fullState.mem.data.length from fullMem_atCapacity)]

/-- C3 counterexample: a concrete GET on a 2xx route with the memory tier
at its 5000-key capacity: the patched res.json propagates ECACHEFULL into
the request-handling path instead of absorbing it. -/
theorem cacheFailure_counterexample :
    handleRequest 300 true fullState 0 fullReq (200, Json.str "data")
      = .errored .ecachefull fullState
    ∧ fullState.mem.data.length = 5000 :=
  ⟨full_request_errored, fullMem_length⟩

/-- C3 witness: the characterization applied to the concrete escaping
request, plus the absorbing clauses of getCache/setCache at the full
store. -/
theorem cacheFailure_spec_witness :
    (fullReq.method = "GET" ∧ 200 ≤ (200, Json.str "data").1
      ∧ (200, Json.str "data").1 < 300
      ∧ fullState.mem.maxKeys ≤ fullState.mem.data.length
      ∧ CacheError.ecachefull = CacheError.ecachefull ∧ fullState = fullState)
    ∧ getCache fullState 0 "cache:/x" true = (none, fullState)
    ∧ setCache fullState 0 "cache:/x" (Json.str "v") 50 true = fullState :=
  ⟨cacheFailure_spec.1 300 true fullState 0 fullReq (200, Json.str "data")
      .ecachefull fullState full_request_errored,
   cacheFailure_spec.2.1 fullState 0 "cache:/x" true fullMem_atCapacity (by
     rw [show memGet fullState.mem 0 "cache:/x" = some Json.null from by
       unfold memGet
       rw [show aget fullState.mem.data "cache:/x" = some ⟨Json.null, farFuture⟩ from
         aget_fullMem_head]
       rfl]
     rfl),
   cacheFailure_spec.2.2 fullState 0 "cache:/x" (Json.str "v") 50 true fullMem_atCapacity⟩

end AyiraCache
